import Mathlib

/-!
Verification development for the mtm-vector-db backend core
(`backend/services/qdrant_service.py`, `backend/services/embedding_service.py`,
`backend/routers/documents.py`, `backend/routers/search.py`).

The Python services operate on dictionaries (payloads) stored in a Qdrant
collection.  We embed them shallowly:

* a payload is an association list from string keys to `PVal` values,
  mirroring a Python dict (first binding wins on lookup, merges override
  existing keys in place and append new keys, as Python dict literals do);
* the Qdrant collection is a list of points, each holding an id, a vector
  and a payload; client operations (`retrieve`, `upsert`, `set_payload`,
  `delete`, `search`, `scroll`) are modelled with their documented Qdrant
  semantics (`retrieve` silently omits missing ids, `delete` by id succeeds
  whether or not the point exists, `set_payload` merges the given keys over
  the stored payload, `search` returns points above the score threshold
  sorted by descending score);
* the embedding model and the similarity measure are abstract function
  parameters (`embed`, `sim`); scores are rationals;
* a backend exception is represented by an `Except.error` argument in the
  `...With` variants of the operations that wrap the client call in
  try/except.
-/

/-- Values stored in a payload dict.  Python `None` is `null`; `metadata`
values are opaque to the core and modelled as flat string pairs. -/
inductive PVal where
  | null
  | s (v : String)
  | strs (v : List String)
  | num (v : Rat)
  | pairs (v : List (String × String))
deriving DecidableEq, Repr

/-- A Python dict with string keys, as an association list. -/
abbrev Payload := List (String × PVal)

/-- Lookup of a key in a dict (first binding wins). -/
def dictGet (d : Payload) (k : String) : Option PVal :=
  match d with
  | [] => none
  | (k', v) :: rest => if k' = k then some v else dictGet rest k

/-- Python `d.get(k, default)`. -/
def pyGet (d : Payload) (k : String) (default : PVal) : PVal :=
  (dictGet d k).getD default

/-- Python `k in d`. -/
def hasKey (d : Payload) (k : String) : Bool :=
  (dictGet d k).isSome

/-- Left-biased choice on optional values (`a` if present, else `b`). -/
def optOr (a b : Option PVal) : Option PVal :=
  match a with
  | some v => some v
  | none => b

/-- Python dict merge `{**a, **b}`: the bindings of `a` in order with values
overridden by `b` where both define a key, followed by the bindings of `b`
whose keys are absent from `a`. -/
def pyMerge (a b : Payload) : Payload :=
  a.map (fun kv => match dictGet b kv.1 with
    | some v => (kv.1, v)
    | none => kv) ++
  b.filter (fun kv => (dictGet a kv.1).isNone)

theorem dictGet_map_override (a b : Payload) (k : String) :
    dictGet (a.map (fun kv => match dictGet b kv.1 with
      | some v => (kv.1, v)
      | none => kv)) k =
      match dictGet a k with
      | some v => some ((dictGet b k).getD v)
      | none => none := by
  induction a with
  | nil => simp [dictGet]
  | cons hd tl ih =>
    obtain ⟨k', v'⟩ := hd
    by_cases h : k' = k
    · subst h
      cases hb : dictGet b k' <;> simp [dictGet, hb]
    · cases hb : dictGet b k' <;> simp [dictGet, h, hb, ih]

theorem dictGet_filter_absent (a b : Payload) (k : String) :
    dictGet (b.filter (fun kv => (dictGet a kv.1).isNone)) k =
      if (dictGet a k).isNone then dictGet b k else none := by
  induction b with
  | nil => simp [dictGet]
  | cons hd tl ih =>
    obtain ⟨k', v'⟩ := hd
    by_cases h : k' = k
    · subst h
      cases ha : dictGet a k' <;>
        simp [List.filter_cons, dictGet, ha, ih]
    · cases hcond : (dictGet a k').isNone <;>
        simp [List.filter_cons, hcond, dictGet, h, ih]

theorem dictGet_append (l1 l2 : Payload) (k : String) :
    dictGet (l1 ++ l2) k = optOr (dictGet l1 k) (dictGet l2 k) := by
  induction l1 with
  | nil => simp [dictGet, optOr]
  | cons hd tl ih =>
    obtain ⟨k', v'⟩ := hd
    by_cases h : k' = k <;> simp [dictGet, h, ih, optOr]

/-- Lookup after a Python dict merge is right-biased. -/
theorem dictGet_pyMerge (a b : Payload) (k : String) :
    dictGet (pyMerge a b) k = optOr (dictGet b k) (dictGet a k) := by
  rw [pyMerge, dictGet_append, dictGet_map_override, dictGet_filter_absent]
  rcases ha : dictGet a k with _ | va <;> rcases hb : dictGet b k with _ | vb <;>
    simp [optOr, Option.isNone]

/-- Keys of a merge: a key is present iff it is present on either side. -/
theorem hasKey_pyMerge (a b : Payload) (k : String) :
    hasKey (pyMerge a b) k = (hasKey a k || hasKey b k) := by
  rw [hasKey, dictGet_pyMerge]
  rcases ha : dictGet a k with _ | va <;> rcases hb : dictGet b k with _ | vb <;>
    simp [optOr, hasKey, ha, hb]

/-! ## The Qdrant collection model -/

/-- A stored point: id, vector and payload.  The vector type `V` is abstract
(the embedding model is opaque to the core). -/
structure Point (V : Type) where
  id : String
  vector : V
  payload : Payload
deriving DecidableEq, Repr

/-- A Qdrant collection is a finite sequence of points. -/
abbrev Store (V : Type) := List (Point V)

/-- Python `x in l` for lists of strings. -/
def strIn (x : String) (l : List String) : Bool :=
  l.any (fun y => x == y)

theorem strIn_singleton (x y : String) : strIn x [y] = (x == y) := by
  simp [strIn]

/-- Qdrant `client.retrieve`: returns the stored points whose ids are among
the requested ids; missing ids are silently omitted. -/
def retrieveStore {V : Type} (store : Store V) (ids : List String) : Store V :=
  store.filter (fun p => strIn p.id ids)

/-- Qdrant `client.upsert` with a single point: overwrites the point with the
same id if one exists, otherwise appends the new point. -/
def upsertPoint {V : Type} (store : Store V) (pt : Point V) : Store V :=
  if store.any (fun q => q.id == pt.id) then
    store.map (fun q => if q.id == pt.id then pt else q)
  else
    store ++ [pt]

/-- Qdrant `client.set_payload`: merges the given payload keys over the
stored payload of every point whose id is in `ids`; vectors are untouched. -/
def set_payloadPoints {V : Type} (store : Store V) (ids : List String)
    (pl : Payload) : Store V :=
  store.map (fun q =>
    if strIn q.id ids then { q with payload := pyMerge q.payload pl } else q)

/-- Qdrant `client.delete` with a `PointIdsList` selector: removes the points
with the given ids; the call succeeds whether or not any of them exists. -/
def points_delete {V : Type} (store : Store V) (ids : List String) : Store V :=
  store.filter (fun p => !(strIn p.id ids))

/-- Qdrant `client.scroll`: a page of the collection. -/
def scrollPoints {V : Type} (store : Store V) (limit : Nat) (offset : Nat) :
    Store V :=
  (store.drop offset).take limit

/-- After an upsert, looking up the upserted id finds exactly the new point. -/
theorem find?_upsertPoint {V : Type} (store : Store V) (pt : Point V) :
    (upsertPoint store pt).find? (fun q => q.id == pt.id) = some pt := by
  induction store with
  | nil => simp [upsertPoint]
  | cons hd tl ih =>
    by_cases h : hd.id = pt.id
    · have hany : ((hd :: tl).any fun q => q.id == pt.id) = true := by
        simp [List.any_cons, h]
      rw [upsertPoint, if_pos hany, List.map_cons]
      have hifpt : (if (hd.id == pt.id) = true then pt else hd) = pt := by
        simp [h]
      rw [hifpt]
      exact List.find?_cons_of_pos _ (by simp)
    · have hb : (hd.id == pt.id) = false := by simp [h]
      have hifhd : (if (hd.id == pt.id) = true then pt else hd) = hd := by
        simp [hb]
      by_cases htl : tl.any (fun q => q.id == pt.id)
      · have hany : ((hd :: tl).any fun q => q.id == pt.id) = true := by
          simp [List.any_cons, htl]
        rw [upsertPoint, if_pos hany, List.map_cons, hifhd,
          List.find?_cons_of_neg _ (by simp [h])]
        rw [upsertPoint, if_pos htl] at ih
        exact ih
      · have hany : ((hd :: tl).any fun q => q.id == pt.id) = false := by
          simp only [List.any_cons, hb, Bool.false_or]
          simpa using htl
        rw [upsertPoint, if_neg (by simp [hany]), List.cons_append,
          List.find?_cons_of_neg _ (by simp [h])]
        rw [upsertPoint, if_neg (by simpa using htl)] at ih
        exact ih

/-- After `set_payload` on one id, looking up that id finds the original
point with the merged payload. -/
theorem find?_set_payloadPoints {V : Type} (store : Store V) (docId : String)
    (pl : Payload) (p : Point V)
    (h : store.find? (fun q => q.id == docId) = some p) :
    (set_payloadPoints store [docId] pl).find? (fun q => q.id == docId) =
      some { p with payload := pyMerge p.payload pl } := by
  induction store with
  | nil => simp at h
  | cons hd tl ih =>
    by_cases hh : hd.id = docId
    · rw [List.find?_cons_of_pos _ (by simp [hh])] at h
      simp only [Option.some.injEq] at h
      subst h
      rw [set_payloadPoints, List.map_cons]
      have hif : (if strIn hd.id [docId] = true
          then { hd with payload := pyMerge hd.payload pl } else hd) =
          { hd with payload := pyMerge hd.payload pl } := by
        simp [strIn_singleton, hh]
      rw [hif]
      exact List.find?_cons_of_pos _ (by simp [hh])
    · rw [List.find?_cons_of_neg _ (by simp [hh])] at h
      have htl := ih h
      rw [set_payloadPoints, List.map_cons]
      have hif : (if strIn hd.id [docId] = true
          then { hd with payload := pyMerge hd.payload pl } else hd) = hd := by
        simp [strIn_singleton, hh]
      rw [hif, List.find?_cons_of_neg _ (by simp [hh])]
      exact htl

/-- Retrieving a single absent id yields the empty list. -/
theorem retrieveStore_absent {V : Type} (store : Store V) (docId : String)
    (h : store.all (fun p => !(p.id == docId)) = true) :
    retrieveStore store [docId] = [] := by
  rw [retrieveStore, List.filter_eq_nil_iff]
  intro p hp
  have := (List.all_eq_true.mp h) p hp
  rw [strIn_singleton]
  simpa using this

/-- The head of the retrieved singleton request is the first point with that
id. -/
theorem retrieveStore_head {V : Type} (store : Store V) (docId : String) :
    (retrieveStore store [docId]).head? =
      store.find? (fun q => q.id == docId) := by
  induction store with
  | nil => simp [retrieveStore]
  | cons hd tl ih =>
    by_cases h : hd.id = docId
    · rw [retrieveStore, List.filter_cons, if_pos (by simp [strIn_singleton, h]),
        List.find?_cons_of_pos _ (by simp [h])]
      rfl
    · rw [retrieveStore, List.filter_cons,
        if_neg (by simp [strIn_singleton, h]),
        List.find?_cons_of_neg _ (by simp [h])]
      exact ih

/-! ## The embedding service (`embedding_service.py`)

The sentence-transformer model is abstract: `model` maps a batch of texts to
a batch of vectors.  `EmbeddingService.encode` wraps a single string into a
one-element batch (the `isinstance(text, str)` branch) and performs no other
processing of the text: in particular the code has no emptiness check and
defines no error type. -/

/-- Argument of `EmbeddingService.encode`: a single text or a list of texts,
mirroring the Python `Union[str, List[str]]`. -/
inductive TextInput where
  | single (text : String)
  | many (texts : List String)

/-- Model of `EmbeddingService.encode`. -/
def encode (model : List String → List (List Rat)) : TextInput → List (List Rat)
  | .single t => model [t]
  | .many ts => model ts

/-- Model of `EmbeddingService.encode_single`: encodes the one-element batch and takes
its first row. -/
def encode_single (model : List String → List (List Rat)) (text : String) :
    List Rat :=
  (encode model (.single text)).headD []

/-- Model of `EmbeddingService.encode_batch` (the batch size only affects
performance). -/
def encode_batch (model : List String → List (List Rat))
    (texts : List String) : List (List Rat) :=
  model texts

/-- Python `text.strip() == ""`: a text is empty after trimming exactly when
all of its characters are whitespace. -/
def strippedEmpty (s : String) : Bool :=
  s.data.all Char.isWhitespace

/-! ## The document store (`qdrant_service.py`) -/

/-- Rendering of a payload value inside an f-string.  Only the string case
(and `None`) can arise for the `title` and `content` fields, which the
request models type as strings. -/
def pvalToStr : PVal → String
  | .s v => v
  | .null => "None"
  | _ => ""

/-- Conversion of an optional request field to a payload value
(`model_dump` turns an absent optional field into `None`). -/
def optStr : Option String → PVal
  | none => .null
  | some v => .s v

/-- The `DocumentCreate` request model (`models.py`): required `title` and
`content`, optional classification fields, tags and metadata. -/
structure DocumentCreate where
  title : String
  content : String
  source : Option String := none
  source_type : Option String := none
  category : Option String := none
  tags : List String := []
  metadata : List (String × String) := []

/-- Python `document.model_dump()` as the dict handed to
`QdrantService.add_document`. -/
def DocumentCreate.toDict (d : DocumentCreate) : Payload :=
  [("title", .s d.title), ("content", .s d.content),
   ("source", optStr d.source), ("source_type", optStr d.source_type),
   ("category", optStr d.category), ("tags", .strs d.tags),
   ("metadata", .pairs d.metadata)]

/-- Embedding text of a document dict: the Python f-string joining the
title and the content fields with a single space. -/
def textForEmbedding (d : Payload) : String :=
  pvalToStr (pyGet d "title" .null) ++ " " ++ pvalToStr (pyGet d "content" .null)

/-- Payload built by `QdrantService.add_document` from the input dict:
exactly the nine document fields, with `created_at` defaulting to the
current time and `updated_at` defaulting to `None`. -/
def addPayload (now : String) (document : Payload) : Payload :=
  [("title", pyGet document "title" .null),
   ("content", pyGet document "content" .null),
   ("source", pyGet document "source" .null),
   ("source_type", pyGet document "source_type" .null),
   ("category", pyGet document "category" .null),
   ("tags", pyGet document "tags" (.strs [])),
   ("metadata", pyGet document "metadata" (.pairs [])),
   ("created_at", pyGet document "created_at" (.s now)),
   ("updated_at", pyGet document "updated_at" .null)]

/-- Document id chosen by `add_document`:
`document.get("id", str(uuid.uuid4()))`, with `freshId` standing for the
generated UUID.  Ids are strings in every request model. -/
def chooseDocId (document : Payload) (freshId : String) : String :=
  match dictGet document "id" with
  | some (.s i) => i
  | some _ => freshId
  | none => freshId

/-- Model of `QdrantService.add_document`.  Here `embed` is
`embedding_service.encode_single`; `freshId` is the generated UUID and `now`
the current timestamp.  Returns the new collection and the document id. -/
def add_document {V : Type} (store : Store V) (embed : String → V)
    (freshId now : String) (document : Payload) : Store V × String :=
  let docId := chooseDocId document freshId
  let vector := embed (textForEmbedding document)
  let payload := addPayload now document
  (upsertPoint store ⟨docId, vector, payload⟩, docId)

/-- Payload built by `QdrantService.add_documents_bulk` for one document:
same nine fields, but `created_at` is always the current time and
`updated_at` is always `None`. -/
def bulkPayload (now : String) (doc : Payload) : Payload :=
  [("title", pyGet doc "title" .null),
   ("content", pyGet doc "content" .null),
   ("source", pyGet doc "source" .null),
   ("source_type", pyGet doc "source_type" .null),
   ("category", pyGet doc "category" .null),
   ("tags", pyGet doc "tags" (.strs [])),
   ("metadata", pyGet doc "metadata" (.pairs [])),
   ("created_at", .s now),
   ("updated_at", .null)]

/-- Model of `QdrantService.add_documents_bulk`: one batched embedding call for all
texts, then a single batched upsert.  `freshIds` supplies one generated UUID
per document. -/
def add_documents_bulk {V : Type} (store : Store V)
    (embedBatch : List String → List V) (freshIds : List String)
    (now : String) (documents : List Payload) : Store V × List String :=
  let texts := documents.map textForEmbedding
  let vectors := embedBatch texts
  let entries := (documents.zip freshIds).zip vectors
  let points := entries.map (fun e =>
    (⟨chooseDocId e.1.1 e.1.2, e.2, bulkPayload now e.1.1⟩ : Point V))
  (points.foldl upsertPoint store, points.map (fun pt => pt.id))

/-- Result of `QdrantService.get_document` given the outcome of the
`client.retrieve` call: `None` on a raised exception, `None` on an empty
result, and otherwise the dict `{"id": point.id, **point.payload}`. -/
def getDocumentWith {V : Type} (res : Except Unit (List (Point V))) :
    Option Payload :=
  match res with
  | .error _ => none
  | .ok [] => none
  | .ok (p :: _) => some (pyMerge [("id", .s p.id)] p.payload)

/-- Model of `QdrantService.get_document` with a healthy backend. -/
def get_document {V : Type} (store : Store V) (docId : String) :
    Option Payload :=
  getDocumentWith (.ok (retrieveStore store [docId]))

/-- Model of `QdrantService.update_document` given the outcome of the retrieve inside
`get_document`: merges the updates over the existing dict, stamps
`updated_at`, and either re-embeds and upserts (when `title` or `content` is
among the updates) or rewrites only the payload. -/
def update_documentWith {V : Type} (store : Store V) (embed : String → V)
    (now docId : String) (updates : Payload)
    (res : Except Unit (List (Point V))) : Store V × Bool :=
  match getDocumentWith res with
  | none => (store, false)
  | some existing =>
    let updated_doc := pyMerge (pyMerge existing updates) [("updated_at", .s now)]
    if hasKey updates "title" || hasKey updates "content" then
      (upsertPoint store ⟨docId, embed (textForEmbedding updated_doc), updated_doc⟩, true)
    else
      (set_payloadPoints store [docId] updated_doc, true)

/-- Model of `QdrantService.update_document` with a healthy backend. -/
def update_document {V : Type} (store : Store V) (embed : String → V)
    (now docId : String) (updates : Payload) : Store V × Bool :=
  update_documentWith store embed now docId updates
    (.ok (retrieveStore store [docId]))

/-- Model of `QdrantService.delete_document` given the outcome of the
`client.delete` call: `True` whenever the call returns, `False` when it
raises. -/
def delete_documentWith {V : Type} (store : Store V)
    (res : Except Unit (Store V)) : Store V × Bool :=
  match res with
  | .ok s => (s, true)
  | .error _ => (store, false)

/-- Model of `QdrantService.delete_document` with a healthy backend: the Qdrant
delete call succeeds whether or not the id exists, so the service returns
`True` either way. -/
def delete_document {V : Type} (store : Store V) (docId : String) :
    Store V × Bool :=
  delete_documentWith store (.ok (points_delete store [docId]))

/-! ## Filtered search (`QdrantService.search`) -/

/-- A Qdrant `FieldCondition` with a `MatchValue`, as built by
`QdrantService.search`. -/
inductive Cond where
  | fieldMatch (field : String) (value : String)
deriving DecidableEq, Repr

/-- Satisfaction of one `FieldCondition(field, MatchValue(value))` against a
payload: for a keyword field the stored string must equal the value, for an
array field the stored array must contain the value; a missing or
differently-typed field does not match. -/
def matchCond (p : Payload) : Cond → Bool
  | .fieldMatch f v =>
    match dictGet p f with
    | some (.s w) => w == v
    | some (.strs l) => l.contains v
    | _ => false

/-- The condition list built by `QdrantService.search` from the optional
filter arguments.  Python truthiness drives each `if`: `None` and the empty
string (resp. the empty list) contribute no condition.  Each supplied tag
value contributes its own condition. -/
def buildConditions (fc fst : Option String) (ft : Option (List String)) :
    List Cond :=
  (match fc with
    | some c => if c = "" then [] else [.fieldMatch "category" c]
    | none => []) ++
  (match fst with
    | some st => if st = "" then [] else [.fieldMatch "source_type" st]
    | none => []) ++
  (match ft with
    | some l => if l.isEmpty then [] else l.map (fun t => .fieldMatch "tags" t)
    | none => [])

/-- Satisfaction of a Qdrant `Filter(must=conds)`: every condition must
hold. -/
def satisfiesConds (cs : List Cond) (p : Payload) : Bool :=
  cs.all (matchCond p)

/-- Satisfaction of the optional `query_filter` argument. -/
def passFilter (filt : Option (List Cond)) (p : Payload) : Bool :=
  match filt with
  | none => true
  | some cs => satisfiesConds cs p

/-- One row of a Qdrant search response. -/
structure SearchHit where
  id : String
  score : Rat
  payload : Payload
deriving DecidableEq, Repr

/-- Python string comparison (lexicographic on code points), used by
`sorted` on ids. -/
def charListLt : List Char → List Char → Bool
  | [], [] => false
  | [], _ :: _ => true
  | _ :: _, [] => false
  | a :: as, b :: bs => if a < b then true else if b < a then false else charListLt as bs

/-- Result order of the index: descending score, ties broken by ascending
id. -/
def hitBefore (a b : SearchHit) : Bool :=
  decide (b.score < a.score) ||
    (decide (a.score = b.score) && !(charListLt b.id.data a.id.data))

def insertHit (a : SearchHit) : List SearchHit → List SearchHit
  | [] => [a]
  | b :: rest => if hitBefore a b then a :: b :: rest else b :: insertHit a rest

def sortHits (l : List SearchHit) : List SearchHit :=
  l.foldr insertHit []

/-- Qdrant `client.search`: scores every stored point against the query
vector with the abstract similarity `sim`, keeps the points that satisfy the
filter and reach the score threshold, sorts them and truncates to the
limit. -/
def searchIndex {V : Type} (store : Store V) (sim : V → V → Rat) (qv : V)
    (lim : Nat) (thr : Rat) (filt : Option (List Cond)) : List SearchHit :=
  let hits := store.filterMap (fun p =>
    if passFilter filt p.payload && decide (thr ≤ sim qv p.vector) then
      some ⟨p.id, sim qv p.vector, p.payload⟩
    else none)
  (sortHits hits).take lim

/-- Result dict `{"id": str(r.id), "score": r.score, **r.payload}`. -/
def hitToDict (r : SearchHit) : Payload :=
  pyMerge [("id", .s r.id), ("score", .num r.score)] r.payload

/-- Model of `QdrantService.search`: embeds the query, builds the filter from the
optional arguments (`Filter(must=conditions)` when any condition was built,
no filter otherwise) and delegates to the index search. -/
def search {V : Type} (store : Store V) (embed : String → V)
    (sim : V → V → Rat) (query : String) (limit : Nat) (thr : Rat)
    (fc fst : Option String) (ft : Option (List String)) : List Payload :=
  let qv := embed query
  let conds := buildConditions fc fst ft
  let filt := if conds.isEmpty then none else some conds
  (searchIndex store sim qv limit thr filt).map hitToDict

/-! ## Similar-document lookup (`QdrantService.find_similar` and the
`/api/search/similar` route) -/

/-- Model of `QdrantService.find_similar`: retrieves the vector of the reference
document, searches with `limit + 1`, drops the reference document itself
from the results and truncates to `limit`.  An unknown id yields the empty
list at this layer. -/
def find_similar {V : Type} (store : Store V) (sim : V → V → Rat)
    (docId : String) (limit : Nat) (thr : Rat) : List Payload :=
  match retrieveStore store [docId] with
  | [] => []
  | p :: _ =>
    let results := searchIndex store sim p.vector (limit + 1) thr none
    ((results.filter (fun r => !(r.id == docId))).map hitToDict).take limit

/-- The error raised by the `/api/search/similar` route for an unknown
reference document (HTTP 404). -/
inductive NotFoundError where
  | notFound
deriving DecidableEq, Repr

/-- Response body of the `/api/search/similar` route. -/
structure SimilarResponse where
  reference_id : PVal
  reference_title : PVal
  similar_documents : List Payload
  total_found : Nat
deriving DecidableEq, Repr

/-- The `/api/search/similar` route (`routers/search.py`): checks that the
reference document exists via `get_document` and raises `NotFoundError`
(HTTP 404) otherwise; only then does it call `find_similar`. -/
def findSimilarEndpoint {V : Type} (store : Store V) (sim : V → V → Rat)
    (docId : String) (limit : Nat) (thr : Rat) :
    Except NotFoundError SimilarResponse :=
  match get_document store docId with
  | none => .error .notFound
  | some doc =>
    let results := find_similar store sim docId limit thr
    .ok ⟨pyGet doc "id" .null, pyGet doc "title" (.s ""), results, results.length⟩

/-! ## The relationship engine (`QdrantService.get_relationships`) -/

/-- A node of the relationship graph. -/
structure RelNode where
  id : String
  title : PVal
  category : PVal
  source_type : PVal
deriving DecidableEq, Repr

/-- An edge of the relationship graph, in the orientation in which the code
appends it. -/
structure RelEdge where
  source : String
  target : String
  weight : Rat
deriving DecidableEq, Repr

/-- Python `tuple(sorted([a, b]))` on two strings. -/
def edgeKey (a b : String) : String × String :=
  if charListLt b.data a.data then (b, a) else (a, b)

/-- Treatment of one hit `s` of a search issued from the point `pid`: an
edge is appended when the hit is a different requested document and its
unordered pair with `pid` has not been seen yet. -/
def relConsider (docIds : List String) (pid : String)
    (acc : List (String × String) × List RelEdge) (s : SearchHit) :
    List (String × String) × List RelEdge :=
  if !(s.id == pid) && strIn s.id docIds then
    if acc.1.any (fun k => k = edgeKey pid s.id) then acc
    else (edgeKey pid s.id :: acc.1, acc.2 ++ [⟨pid, s.id, s.score⟩])
  else acc

/-- Inner loop of `get_relationships` over the hits of one search. -/
def relStep (docIds : List String) (pid : String)
    (acc : List (String × String) × List RelEdge) (sims : List SearchHit) :
    List (String × String) × List RelEdge :=
  sims.foldl (relConsider docIds pid) acc

/-- Model of `QdrantService.get_relationships`: retrieves the requested points, makes
one node per retrieved point, then issues one top-10 search per point and
collects deduplicated edges. -/
def get_relationships {V : Type} (store : Store V) (sim : V → V → Rat)
    (docIds : List String) (thr : Rat) : List RelNode × List RelEdge :=
  let points := retrieveStore store docIds
  let nodes := points.map (fun p =>
    (⟨p.id, pyGet p.payload "title" (.s ""), pyGet p.payload "category" .null,
      pyGet p.payload "source_type" .null⟩ : RelNode))
  let res := points.foldl (fun acc p =>
    relStep docIds p.id acc (searchIndex store sim p.vector 10 thr none)) ([], [])
  (nodes, res.2)

/-! ## The stats aggregator (`QdrantService.get_collection_stats`) -/

/-- Python truthiness of a payload value, as used by `if cat:` and
`if st:`. -/
def pyTruthy : PVal → Bool
  | .null => false
  | .s v => !(v == "")
  | .strs l => !l.isEmpty
  | .num q => !(q == 0)
  | .pairs l => !l.isEmpty

/-- Python `d.get(k, 0) + 1` counter update on a dict used as a frequency
table: an existing key is incremented in place, a new key is appended with
count one. -/
def bump {α : Type} [BEq α] (m : List (α × Nat)) (k : α) : List (α × Nat) :=
  if m.any (fun kv => kv.1 == k) then
    m.map (fun kv => if kv.1 == k then (kv.1, kv.2 + 1) else kv)
  else m ++ [(k, 1)]

/-- Count recorded in a frequency table (zero for an absent key). -/
def getCount {α : Type} [BEq α] (m : List (α × Nat)) (k : α) : Nat :=
  match m.find? (fun kv => kv.1 == k) with
  | some kv => kv.2
  | none => 0

/-- Category value of a stored point: `point.payload.get("category")`. -/
def catOf {V : Type} (p : Point V) : PVal :=
  pyGet p.payload "category" .null

/-- Source-type value of a stored point. -/
def stypeOf {V : Type} (p : Point V) : PVal :=
  pyGet p.payload "source_type" .null

/-- Tag list of a stored point: `point.payload.get("tags", [])`.  Stored
tags are string arrays; any other shape yields nothing to iterate. -/
def tagsOf {V : Type} (p : Point V) : List String :=
  match dictGet p.payload "tags" with
  | some (.strs l) => l
  | _ => []

/-- Per-point accumulation step of `get_collection_stats`. -/
def statStep {V : Type}
    (acc : List (PVal × Nat) × List (PVal × Nat) × List (String × Nat))
    (p : Point V) :
    List (PVal × Nat) × List (PVal × Nat) × List (String × Nat) :=
  (if pyTruthy (catOf p) then bump acc.1 (catOf p) else acc.1,
   if pyTruthy (stypeOf p) then bump acc.2.1 (stypeOf p) else acc.2.1,
   (tagsOf p).foldl bump acc.2.2)

/-- The points visited by `get_collection_stats`: one single
`client.scroll` call with `limit=10000` from the start of the collection. -/
def statsAllPoints {V : Type} (store : Store V) : Store V :=
  scrollPoints store 10000 0

/-- Return value of `get_collection_stats`. -/
structure CollectionStats where
  total_documents : Nat
  categories : List (PVal × Nat)
  source_types : List (PVal × Nat)
  tags : List (String × Nat)
deriving DecidableEq, Repr

/-- Model of `QdrantService.get_collection_stats`: the exact collection size from
`get_collection`, and frequency tables accumulated over the single scrolled
page. -/
def get_collection_stats {V : Type} (store : Store V) : CollectionStats :=
  let res := (statsAllPoints store).foldl statStep ([], [], [])
  ⟨store.length, res.1, res.2.1, res.2.2⟩

/-! ## Counting lemmas for the stats aggregator -/

theorem getCount_map_inc {α : Type} [DecidableEq α] [BEq α] [LawfulBEq α]
    (m : List (α × Nat)) (k k' : α) :
    getCount (m.map (fun kv => if kv.1 == k then (kv.1, kv.2 + 1) else kv)) k' =
      getCount m k' +
        (if k' = k ∧ (m.any (fun kv => kv.1 == k') = true) then 1 else 0) := by
  induction m with
  | nil => simp [getCount]
  | cons hd tl ih =>
    obtain ⟨a, n⟩ := hd
    by_cases ha : a = k'
    · subst ha
      by_cases hk : a = k
      · subst hk
        rw [List.map_cons, if_pos (by simp), getCount,
          List.find?_cons_of_pos _ (by simp), getCount,
          List.find?_cons_of_pos _ (by simp)]
        simp [List.any_cons]
      · have hb : (a == k) = false := by simp [hk]
        rw [List.map_cons, getCount]
        rw [if_neg (by simp [hb])]
        rw [List.find?_cons_of_pos _ (by simp), getCount,
          List.find?_cons_of_pos _ (by simp)]
        have : ¬(a = k ∧ (((a, n) :: tl).any (fun kv => kv.1 == a) = true)) := by
          intro hcon
          exact hk hcon.1
        rw [if_neg this]
        simp
    · have hb : (a == k') = false := by simp [ha]
      rw [List.map_cons, getCount,
        List.find?_cons_of_neg _ (by
          by_cases hak : a = k
          · subst hak
            simp [ha]
          · simp [hak, ha])]
      rw [getCount] at ih ⊢
      rw [List.find?_cons_of_neg _ (by simp [hb]), ih]
      congr 2
      simp [List.any_cons, hb]

theorem getCount_bump {α : Type} [DecidableEq α] [BEq α] [LawfulBEq α]
    (m : List (α × Nat)) (k k' : α) :
    getCount (bump m k) k' = getCount m k' + (if k' = k then 1 else 0) := by
  by_cases hany : m.any (fun kv => kv.1 == k) = true
  · rw [bump, if_pos hany, getCount_map_inc]
    by_cases hk : k' = k
    · subst hk
      simp [hany]
    · simp [hk]
  · rw [bump, if_neg hany, getCount, List.find?_append]
    by_cases hk : k' = k
    · subst hk
      have hnone : m.find? (fun kv => kv.1 == k') = none := by
        rw [List.find?_eq_none]
        intro kv hkv hc
        exact hany (List.any_eq_true.mpr ⟨kv, hkv, hc⟩)
      rw [hnone]
      simp [getCount, hnone, List.find?]
    · have hb : (k == k') = false := by
        simp only [beq_eq_false_iff_ne, ne_eq]
        intro h
        exact hk h.symm
      cases hf : m.find? (fun kv => kv.1 == k') <;>
        simp [getCount, hf, List.find?, hb, hk]

theorem getCount_foldl_bumpIf {V α : Type} [DecidableEq α] [BEq α]
    [LawfulBEq α] (f : Point V → α) (cond : Point V → Bool)
    (l : List (Point V)) (m : List (α × Nat)) (v : α) :
    getCount (l.foldl (fun a p => if cond p then bump a (f p) else a) m) v =
      getCount m v + l.countP (fun p => cond p && (f p == v)) := by
  induction l generalizing m with
  | nil => simp
  | cons p tl ih =>
    rw [List.foldl_cons]
    by_cases hc : cond p = true
    · rw [if_pos hc, ih, getCount_bump, List.countP_cons]
      by_cases hv : f p = v
      · subst hv
        simp [hc]
        omega
      · have hbv : (f p == v) = false := by simp [hv]
        have hnv : ¬(v = f p) := fun h => hv h.symm
        simp [hc, hbv, hnv]
    · rw [if_neg hc, ih, List.countP_cons]
      have hc' : cond p = false := by simpa using hc
      simp [hc']

theorem getCount_foldl_bump_tags (ts : List String) (m : List (String × Nat))
    (t : String) :
    getCount (ts.foldl bump m) t = getCount m t + ts.count t := by
  induction ts generalizing m with
  | nil => simp
  | cons s rest ih =>
    rw [List.foldl_cons, ih, getCount_bump, List.count_cons]
    by_cases h : s = t
    · subst h
      simp
      omega
    · have hb : (s == t) = false := by simp [h]
      have : ¬(t = s) := fun hh => h hh.symm
      simp [hb, this]

theorem getCount_foldl_tagStep {V : Type} (l : List (Point V))
    (m : List (String × Nat)) (t : String) :
    getCount (l.foldl (fun a p => (tagsOf p).foldl bump a) m) t =
      getCount m t + (l.map (fun p => (tagsOf p).count t)).sum := by
  induction l generalizing m with
  | nil => simp
  | cons p tl ih =>
    rw [List.foldl_cons, ih, getCount_foldl_bump_tags, List.map_cons,
      List.sum_cons]
    omega

theorem foldl_statStep_proj {V : Type} (l : List (Point V))
    (acc : List (PVal × Nat) × List (PVal × Nat) × List (String × Nat)) :
    l.foldl statStep acc =
      (l.foldl (fun a p => if pyTruthy (catOf p) then bump a (catOf p) else a) acc.1,
       l.foldl (fun a p => if pyTruthy (stypeOf p) then bump a (stypeOf p) else a) acc.2.1,
       l.foldl (fun a p => (tagsOf p).foldl bump a) acc.2.2) := by
  induction l generalizing acc with
  | nil => rfl
  | cons p tl ih =>
    rw [List.foldl_cons, ih]
    rfl

/-! ## Characterization of `update_document` -/

theorem optOr_none_left (x : Option PVal) : optOr none x = x := rfl

theorem optOr_none_right (x : Option PVal) : optOr x none = x := by
  cases x <;> rfl

theorem optOr_absorb (a b : Option PVal) : optOr (optOr a b) b = optOr a b := by
  cases a <;> cases b <;> rfl

/-- The dict written by `update_document` for the existing point `p`:
`{**existing, **updates, "updated_at": now}` where `existing` is the
`get_document` result `{"id": p.id, **p.payload}`. -/
def mergedUpd {V : Type} (p : Point V) (updates : Payload) (now : String) :
    Payload :=
  pyMerge (pyMerge (pyMerge [("id", .s p.id)] p.payload) updates)
    [("updated_at", .s now)]

theorem dictGet_mergedUpd {V : Type} (p : Point V) (updates : Payload)
    (now : String) (k : String) (hk1 : k ≠ "updated_at") (hk2 : k ≠ "id") :
    dictGet (mergedUpd p updates now) k =
      optOr (dictGet updates k) (dictGet p.payload k) := by
  have hua : dictGet [("updated_at", PVal.s now)] k = none := by
    rw [dictGet, if_neg (fun h => hk1 h.symm)]
    rfl
  have hid : dictGet [("id", PVal.s p.id)] k = none := by
    rw [dictGet, if_neg (fun h => hk2 h.symm)]
    rfl
  rw [mergedUpd, dictGet_pyMerge, hua, optOr_none_left, dictGet_pyMerge,
    dictGet_pyMerge, hid, optOr_none_right]

theorem dictGet_mergedUpd_updated_at {V : Type} (p : Point V)
    (updates : Payload) (now : String) :
    dictGet (mergedUpd p updates now) "updated_at" = some (PVal.s now) := by
  rw [mergedUpd, dictGet_pyMerge]
  rfl

theorem hasKey_mergedUpd {V : Type} (p : Point V) (updates : Payload)
    (now : String) : hasKey (mergedUpd p updates now) "id" = true := by
  rw [mergedUpd, hasKey_pyMerge, hasKey_pyMerge, hasKey_pyMerge]
  simp [hasKey, dictGet]

/-- An update of an id that is not in the collection reports failure and
leaves the collection unchanged. -/
theorem update_document_absent {V : Type} (store : Store V)
    (embed : String → V) (now docId : String) (updates : Payload)
    (h : store.find? (fun q => q.id == docId) = none) :
    update_document store embed now docId updates = (store, false) := by
  have hretr : retrieveStore store [docId] = [] := by
    have hh := retrieveStore_head store docId
    rw [h, List.head?_eq_none_iff] at hh
    exact hh
  rw [update_document, hretr]
  rfl

/-- An update of an id that is in the collection reports success and
rewrites that point: the stored payload becomes the merged dict (merged once
more over the old payload by the Qdrant `set_payload` semantics in the
payload-only branch), and the vector is re-embedded exactly when `title` or
`content` is among the updates. -/
theorem update_document_found {V : Type} (store : Store V)
    (embed : String → V) (now docId : String) (updates : Payload)
    (p : Point V) (h : store.find? (fun q => q.id == docId) = some p) :
    (update_document store embed now docId updates).2 = true ∧
    ∃ u, ((update_document store embed now docId updates).1.find?
        (fun q => q.id == docId)) = some u ∧
      u.payload = (if (hasKey updates "title" || hasKey updates "content") = true
        then mergedUpd p updates now
        else pyMerge p.payload (mergedUpd p updates now)) ∧
      u.vector = (if (hasKey updates "title" || hasKey updates "content") = true
        then embed (textForEmbedding (mergedUpd p updates now))
        else p.vector) := by
  obtain ⟨rest, hretr⟩ : ∃ rest, retrieveStore store [docId] = p :: rest := by
    have hh := retrieveStore_head store docId
    rw [h] at hh
    cases hl : retrieveStore store [docId] with
    | nil => rw [hl] at hh; simp at hh
    | cons q rest =>
      rw [hl] at hh
      simp only [List.head?_cons, Option.some.injEq] at hh
      exact ⟨rest, by rw [hh]⟩
  have hpid : p.id = docId := by
    have := List.find?_some h
    simpa using this
  rw [update_document, hretr]
  rw [update_documentWith]
  simp only [getDocumentWith]
  by_cases hre : (hasKey updates "title" || hasKey updates "content") = true
  · rw [if_pos hre]
    refine ⟨rfl, ⟨docId, embed (textForEmbedding (mergedUpd p updates now)),
      mergedUpd p updates now⟩, ?_, by simp [hre], by simp [hre]⟩
    exact find?_upsertPoint store
      ⟨docId, embed (textForEmbedding (mergedUpd p updates now)),
        mergedUpd p updates now⟩
  · rw [if_neg hre]
    refine ⟨rfl, { p with payload := pyMerge p.payload (mergedUpd p updates now) },
      ?_, by simp [hre], by simp [hre]⟩
    exact find?_set_payloadPoints store docId _ p h

/-! ## The edge set of `get_relationships` -/

/-- Unordered keys of the edges, in order of appearance. -/
def keysOfEdges (edges : List RelEdge) : List (String × String) :=
  edges.map (fun e => edgeKey e.source e.target)

/-- Invariant maintained by the edge-collection loop: the unordered keys of
the collected edges are pairwise distinct and all recorded in the seen set,
and every edge joins two distinct documents of the requested set. -/
def EdgeInv (docIds : List String)
    (acc : List (String × String) × List RelEdge) : Prop :=
  (keysOfEdges acc.2).Nodup ∧
  (∀ k ∈ keysOfEdges acc.2, acc.1.any (fun x => x = k) = true) ∧
  acc.2.all (fun e => !(e.source == e.target) && strIn e.target docIds) = true

theorem edgeInv_relConsider (docIds : List String) (pid : String)
    (acc : List (String × String) × List RelEdge) (s : SearchHit)
    (h : EdgeInv docIds acc) :
    EdgeInv docIds (relConsider docIds pid acc s) := by
  by_cases hcond : (!(s.id == pid) && strIn s.id docIds) = true
  · by_cases hseen : acc.1.any (fun k => k = edgeKey pid s.id) = true
    · rw [relConsider, if_pos hcond, if_pos hseen]
      exact h
    · rw [relConsider, if_pos hcond, if_neg hseen]
      obtain ⟨hnd, hmem, hall⟩ := h
      have hkeys : keysOfEdges (acc.2 ++ [⟨pid, s.id, s.score⟩]) =
          keysOfEdges acc.2 ++ [edgeKey pid s.id] := by
        rw [keysOfEdges, List.map_append]
        rfl
      refine ⟨?_, ?_, ?_⟩
      · rw [hkeys, List.nodup_append]
        refine ⟨hnd, List.nodup_singleton _, ?_⟩
        intro k hk hk1
        have hk' : k = edgeKey pid s.id := by simpa using hk1
        subst hk'
        exact hseen (hmem _ hk)
      · intro k hk
        rw [hkeys, List.mem_append] at hk
        rcases hk with hk | hk
        · have := hmem k hk
          rw [List.any_cons]
          simp only [this, Bool.or_true]
        · have hk' : k = edgeKey pid s.id := by simpa using hk
          subst hk'
          rw [List.any_cons]
          simp
      · rw [List.all_append, hall]
        simp only [Bool.true_and, List.all_cons, List.all_nil, Bool.and_true]
        simp only [Bool.and_eq_true, Bool.not_eq_true'] at hcond ⊢
        refine ⟨?_, hcond.2⟩
        simp only [beq_eq_false_iff_ne, ne_eq] at hcond ⊢
        exact fun hh => hcond.1 hh.symm
  · rw [relConsider, if_neg hcond]
    exact h

theorem edgeInv_relStep (docIds : List String) (pid : String)
    (acc : List (String × String) × List RelEdge) (sims : List SearchHit)
    (h : EdgeInv docIds acc) :
    EdgeInv docIds (relStep docIds pid acc sims) := by
  induction sims generalizing acc with
  | nil => exact h
  | cons s rest ih =>
    rw [relStep, List.foldl_cons]
    exact ih _ (edgeInv_relConsider docIds pid acc s h)

theorem edgeInv_foldPoints {V : Type} (store : Store V) (sim : V → V → Rat)
    (docIds : List String) (thr : Rat) (pts : List (Point V))
    (acc : List (String × String) × List RelEdge) (h : EdgeInv docIds acc) :
    EdgeInv docIds (pts.foldl (fun acc p =>
      relStep docIds p.id acc (searchIndex store sim p.vector 10 thr none)) acc) := by
  induction pts generalizing acc with
  | nil => exact h
  | cons p rest ih =>
    rw [List.foldl_cons]
    exact ih _ (edgeInv_relStep docIds p.id acc _ h)

/-! ## Claim theorems -/

/-- C10: `get_document` catches every exception of the underlying retrieve
and returns `None`, making a backend error indistinguishable from a missing
document at the `get_document` boundary, and `update_document` attempted
during such a failure returns `False` with the collection unchanged, as for
an absent id. -/
theorem get_document_error_handling {V : Type} (store : Store V)
    (embed : String → V) (now docId : String) (updates : Payload) :
    getDocumentWith (Except.error () : Except Unit (List (Point V))) = none ∧
    getDocumentWith (Except.ok ([] : List (Point V))) = none ∧
    update_documentWith store embed now docId updates (Except.error ()) =
      (store, false) :=
  ⟨rfl, rfl, rfl⟩

/-- C3, counterexample: deleting the id `x` from the empty collection
returns `True`, where the claim demands `False` for an absent id.  The
service returns `True` whenever the backend delete call returns, and the
Qdrant delete-by-id call succeeds for missing ids. -/
theorem delete_missing_counterexample :
    delete_document ([] : Store Int) "x" = ([], true) :=
  rfl

/-- C3, amended: `delete_document` never raises for a missing id, but it
returns `True` whether or not a record existed (the collection is unchanged
when the id was absent); it returns `False` exactly when the backend delete
call raises. -/
theorem delete_document_spec (V : Type) :
    (∀ (store : Store V) (docId : String),
        store.all (fun p => !(p.id == docId)) = true →
        delete_document store docId = (store, true)) ∧
    (∀ store : Store V,
        delete_documentWith store (Except.error ()) = (store, false)) := by
  refine ⟨?_, fun store => rfl⟩
  intro store docId h
  rw [delete_document, delete_documentWith]
  have : points_delete store [docId] = store := by
    rw [points_delete]
    apply List.filter_eq_self.mpr
    intro p hp
    have := (List.all_eq_true.mp h) p hp
    rw [strIn_singleton]
    simpa using this
  rw [this]

/-- Witness for the amended C3 theorem at a concrete input: deleting an
absent id from a one-document collection returns `True` and changes
nothing. -/
theorem delete_document_spec_witness :
    delete_document [(⟨"d1", (0 : Int), []⟩ : Point Int)] "x" =
      ([⟨"d1", 0, []⟩], true) :=
  (delete_document_spec Int).1 [⟨"d1", 0, []⟩] "x" (by decide)

/-- C2: the `/api/search/similar` route fails with `NotFoundError` (HTTP
404) for every reference id absent from the collection; the existence check
happens in the route before `QdrantService.find_similar` is called. -/
theorem find_similar_missing_raises {V : Type} (store : Store V)
    (sim : V → V → Rat) (docId : String) (limit : Nat) (thr : Rat)
    (h : store.all (fun p => !(p.id == docId)) = true) :
    findSimilarEndpoint store sim docId limit thr =
      Except.error NotFoundError.notFound := by
  have h1 : get_document store docId = none := by
    rw [get_document, retrieveStore_absent store docId h]
    rfl
  rw [findSimilarEndpoint, h1]

/-- Witness for the C2 theorem at a concrete input. -/
theorem find_similar_missing_raises_witness :
    findSimilarEndpoint [(⟨"d1", (0 : Int), []⟩ : Point Int)]
      (fun _ _ => 1) "x" 10 (1 / 2) = Except.error NotFoundError.notFound :=
  find_similar_missing_raises _ _ _ _ _ (by decide)

/-- C7: behaviour of `update_document`.  For an absent id it returns
`False` and changes nothing.  For a stored document it returns `True`, sets
`updated_at` to the current time, merges the supplied fields over the
existing payload (every other payload key keeps its stored value), and the
stored vector is re-embedded from the merged post-update title and content
exactly when `title` or `content` is among the supplied fields, being left
unchanged otherwise. -/
theorem update_document_spec (V : Type) :
    (∀ (store : Store V) (embed : String → V) (now docId : String)
        (updates : Payload),
        store.find? (fun q => q.id == docId) = none →
        update_document store embed now docId updates = (store, false)) ∧
    (∀ (store : Store V) (embed : String → V) (now docId : String)
        (updates : Payload) (p : Point V),
        store.find? (fun q => q.id == docId) = some p →
        (update_document store embed now docId updates).2 = true ∧
        ∃ u, ((update_document store embed now docId updates).1.find?
            (fun q => q.id == docId)) = some u ∧
          dictGet u.payload "updated_at" = some (PVal.s now) ∧
          (∀ k, k ≠ "updated_at" → k ≠ "id" →
            dictGet u.payload k =
              optOr (dictGet updates k) (dictGet p.payload k)) ∧
          u.vector = (if (hasKey updates "title" || hasKey updates "content") = true
            then embed (pvalToStr ((optOr (dictGet updates "title")
                    (dictGet p.payload "title")).getD .null) ++ " " ++
                  pvalToStr ((optOr (dictGet updates "content")
                    (dictGet p.payload "content")).getD .null))
            else p.vector)) := by
  refine ⟨fun store embed now docId updates h =>
    update_document_absent store embed now docId updates h, ?_⟩
  intro store embed now docId updates p h
  obtain ⟨hret, u, hu, hpl, hvec⟩ := update_document_found store embed now docId updates p h
  refine ⟨hret, u, hu, ?_, ?_, ?_⟩
  · rw [hpl]
    by_cases hre : (hasKey updates "title" || hasKey updates "content") = true
    · rw [if_pos hre, dictGet_mergedUpd_updated_at]
    · rw [if_neg hre, dictGet_pyMerge, dictGet_mergedUpd_updated_at]
      rfl
  · intro k hk1 hk2
    rw [hpl]
    by_cases hre : (hasKey updates "title" || hasKey updates "content") = true
    · rw [if_pos hre, dictGet_mergedUpd p updates now k hk1 hk2]
    · rw [if_neg hre, dictGet_pyMerge, dictGet_mergedUpd p updates now k hk1 hk2,
        optOr_absorb]
  · rw [hvec]
    by_cases hre : (hasKey updates "title" || hasKey updates "content") = true
    · rw [if_pos hre, if_pos hre, textForEmbedding]
      have ht : dictGet (mergedUpd p updates now) "title" =
          optOr (dictGet updates "title") (dictGet p.payload "title") :=
        dictGet_mergedUpd p updates now "title" (by decide) (by decide)
      have hc : dictGet (mergedUpd p updates now) "content" =
          optOr (dictGet updates "content") (dictGet p.payload "content") :=
        dictGet_mergedUpd p updates now "content" (by decide) (by decide)
      rw [pyGet, pyGet, ht, hc]
    · rw [if_neg hre, if_neg hre]

/-- The zero embedder used for concrete instances. -/
def embedZ : String → Int := fun _ => 0

/-- A collection obtained by adding one document through `add_document`. -/
def store0 : Store Int :=
  (add_document ([] : Store Int) embedZ "d1" "t0"
    (DocumentCreate.toDict ⟨"T", "C", none, none, none, [], []⟩)).1

/-- Witness for the C7 theorem at a concrete input: updating the category
of a stored document succeeds. -/
theorem update_document_spec_witness :
    (update_document store0 embedZ "t1" "d1" [("category", PVal.s "x")]).2 =
      true :=
  ((update_document_spec Int).2 store0 embedZ "t1" "d1"
    [("category", PVal.s "x")]
    ⟨"d1", 0, addPayload "t0" (DocumentCreate.toDict ⟨"T", "C", none, none, none, [], []⟩)⟩
    (by decide)).1

/-- C4, counterexample: after adding a document and updating its category,
the stored payload contains the key `id` (the update merges over the
`get_document` result, which includes the id), where the claim says the id
never appears as a payload field. -/
theorem update_injects_id_counterexample :
    (((update_document store0 embedZ "t1" "d1" [("category", PVal.s "x")]).1.find?
        (fun q => q.id == "d1")).map (fun q => hasKey q.payload "id")) =
      some true := by
  decide

/-- C4, amended: the payloads written by `add_document` and
`add_documents_bulk` consist of exactly the nine document fields other than
`id` (title, content, source, source_type, category, tags, metadata,
created_at, updated_at); but the payload written by a successful
`update_document` additionally contains the `id` key, because the update
merges the supplied fields over the `get_document` dict, which includes the
id. -/
theorem payload_fields_spec (V : Type) :
    (∀ (now : String) (document : Payload),
        (addPayload now document).map Prod.fst =
          ["title", "content", "source", "source_type", "category", "tags",
           "metadata", "created_at", "updated_at"]) ∧
    (∀ (now : String) (document : Payload),
        (bulkPayload now document).map Prod.fst =
          ["title", "content", "source", "source_type", "category", "tags",
           "metadata", "created_at", "updated_at"]) ∧
    (∀ (store : Store V) (embed : String → V) (now docId : String)
        (updates : Payload) (p : Point V),
        store.find? (fun q => q.id == docId) = some p →
        ∃ u, ((update_document store embed now docId updates).1.find?
            (fun q => q.id == docId)) = some u ∧
          hasKey u.payload "id" = true) := by
  refine ⟨fun now document => rfl, fun now document => rfl, ?_⟩
  intro store embed now docId updates p h
  obtain ⟨_, u, hu, hpl, _⟩ := update_document_found store embed now docId updates p h
  refine ⟨u, hu, ?_⟩
  rw [hpl]
  by_cases hre : (hasKey updates "title" || hasKey updates "content") = true
  · rw [if_pos hre, hasKey_mergedUpd]
  · rw [if_neg hre, hasKey_pyMerge, hasKey_mergedUpd]
    simp

/-- Witness for the amended C4 theorem at a concrete input. -/
theorem payload_fields_spec_witness :
    (((update_document store0 embedZ "t2" "d1" [("source", PVal.s "u")]).1.find?
        (fun q => q.id == "d1")).map (fun q => hasKey q.payload "id")) =
      some true := by
  obtain ⟨u, hu, hk⟩ := (payload_fields_spec Int).2.2 store0 embedZ "t2" "d1"
    [("source", PVal.s "u")]
    ⟨"d1", 0, addPayload "t0" (DocumentCreate.toDict ⟨"T", "C", none, none, none, [], []⟩)⟩
    (by decide)
  rw [hu]
  simp [hk]

/-- C1, counterexample: a stored document whose tags contain `a`, one of
the two supplied tag values, is not returned by `search` even though its
similarity passes the threshold — the built filter requires every supplied
tag, where the claim says containing any one suffices. -/
theorem search_tags_or_counterexample :
    dictGet (addPayload "t0" (DocumentCreate.toDict ⟨"T", "C", none, none, none, ["a"], []⟩)) "tags" =
      some (PVal.strs ["a"]) ∧
    search [(⟨"d1", (0 : Int),
        addPayload "t0" (DocumentCreate.toDict ⟨"T", "C", none, none, none, ["a"], []⟩)⟩ : Point Int)]
      (fun _ => 0) (fun _ _ => 1) "q" 10 0 none none (some ["a", "b"]) = [] := by
  decide

/-- C1, amended: the filter built by `search` is a conjunction over the
supplied fields and over the individual tag values: a candidate satisfies it
iff its category equals the supplied category (when one is supplied and
nonempty), its source type equals the supplied source type, and its payload
matches every supplied tag value (`matchCond` on the `tags` field holds when
the stored tag array contains the value), so tag values combine by AND, not
OR. -/
theorem search_filter_and_semantics (fc fst : Option String)
    (ft : Option (List String)) (p : Payload) :
    satisfiesConds (buildConditions fc fst ft) p = true ↔
      ((∀ c, fc = some c → c ≠ "" →
          matchCond p (.fieldMatch "category" c) = true) ∧
       (∀ st, fst = some st → st ≠ "" →
          matchCond p (.fieldMatch "source_type" st) = true) ∧
       (∀ l, ft = some l → ∀ t ∈ l,
          matchCond p (.fieldMatch "tags" t) = true)) := by
  have h1 : ((match fc with
      | some c => if c = "" then [] else [Cond.fieldMatch "category" c]
      | none => ([] : List Cond)).all (matchCond p) = true) ↔
      (∀ c, fc = some c → c ≠ "" →
        matchCond p (.fieldMatch "category" c) = true) := by
    cases fc with
    | none => simp
    | some c =>
      by_cases hc : c = ""
      · subst hc
        simp
      · simp [hc]
  have h2 : ((match fst with
      | some st => if st = "" then [] else [Cond.fieldMatch "source_type" st]
      | none => ([] : List Cond)).all (matchCond p) = true) ↔
      (∀ st, fst = some st → st ≠ "" →
        matchCond p (.fieldMatch "source_type" st) = true) := by
    cases fst with
    | none => simp
    | some st =>
      by_cases hst : st = ""
      · subst hst
        simp
      · simp [hst]
  have h3 : ((match ft with
      | some l => if l.isEmpty then []
          else l.map (fun t => Cond.fieldMatch "tags" t)
      | none => ([] : List Cond)).all (matchCond p) = true) ↔
      (∀ l, ft = some l → ∀ t ∈ l,
        matchCond p (.fieldMatch "tags" t) = true) := by
    cases ft with
    | none => simp
    | some l =>
      by_cases hl : l.isEmpty
      · rw [List.isEmpty_iff] at hl
        subst hl
        simp
      · have hl' : l.isEmpty = false := by simpa using hl
        simp only [hl', Bool.false_eq_true, if_false, List.all_eq_true,
          List.mem_map, Option.some.injEq, forall_eq']
        constructor
        · intro hx t ht
          exact hx _ ⟨t, ht, rfl⟩
        · rintro hx c ⟨t, ht, rfl⟩
          exact hx t ht
  rw [satisfiesConds, buildConditions.eq_def, List.all_append, List.all_append,
    Bool.and_eq_true, Bool.and_eq_true]
  exact ⟨fun hh => ⟨h1.mp hh.1.1, h2.mp hh.1.2, h3.mp hh.2⟩,
    fun hh => ⟨⟨h1.mpr hh.1, h2.mpr hh.2.1⟩, h3.mpr hh.2.2⟩⟩

/-- C5, counterexample: two mutually similar documents stored in the order
`b`, `a` produce the single edge with source `b` and target `a`, whose source
is not below its target in the lexicographic id order that the code uses
for its dedup key (`tuple(sorted(...))`): the returned orientation is
discovery order, not the sorted order. -/
theorem relationships_edge_order_counterexample :
    (get_relationships [(⟨"b", (0 : Int), []⟩ : Point Int), ⟨"a", 0, []⟩]
        (fun _ _ => 1) ["b", "a"] 1).2 = [⟨"b", "a", 1⟩] ∧
    charListLt "b".data "a".data = false := by
  decide

/-- C5, amended: the edge set of `get_relationships` contains at most one
edge per unordered pair of ids (the unordered keys of the returned edges are
pairwise distinct, so no duplicate and no reversed pair both occur), and
every edge joins two distinct ids of the requested set; but the stored
`(source, target)` orientation is the discovery order, not an order with
`source < target`. -/
theorem relationships_edge_dedup {V : Type} (store : Store V)
    (sim : V → V → Rat) (docIds : List String) (thr : Rat) :
    (keysOfEdges (get_relationships store sim docIds thr).2).Nodup ∧
    ((get_relationships store sim docIds thr).2).all
      (fun e => !(e.source == e.target) && strIn e.target docIds) = true := by
  have hinv := edgeInv_foldPoints store sim docIds thr
    (retrieveStore store docIds) ([], [])
    ⟨List.nodup_nil, by simp [keysOfEdges], rfl⟩
  exact ⟨hinv.1, hinv.2.2⟩

/-- A constant sentence-transformer model for concrete instances: every
text is mapped to the vector `[1]`. -/
def constModel : List String → List (List Rat) := fun l => l.map (fun _ => [1])

/-- C8, counterexample: a text consisting only of whitespace (hence empty
after trimming) is encoded to a vector by `encode_single`; no
`EmbeddingError` is raised — the code performs no emptiness check and
defines no error type. -/
theorem encode_empty_counterexample :
    strippedEmpty "   " = true ∧ encode_single constModel "   " = [1] := by
  decide

/-- The document with empty title and empty content. -/
def blankCreate : DocumentCreate := { title := "", content := "" }

/-- C8, amended: `encode_single` returns the model vector for every input,
including texts empty after trimming, and the add pipeline accordingly
stores a document whose title and content are empty: the embedding text is
the single space `" "` (which is empty after trimming) and the stored
vector is its encoding, with no failure anywhere. -/
theorem encode_no_empty_check (model : List String → List (List Rat))
    (store : Store (List Rat)) (fid now : String) :
    textForEmbedding blankCreate.toDict = " " ∧
    strippedEmpty " " = true ∧
    (add_document store (encode_single model) fid now blankCreate.toDict).2 = fid ∧
    ((add_document store (encode_single model) fid now blankCreate.toDict).1.find?
        (fun q => q.id == fid)) =
      some ⟨fid, encode_single model (textForEmbedding blankCreate.toDict),
        addPayload now blankCreate.toDict⟩ := by
  refine ⟨rfl, by decide, rfl, ?_⟩
  exact find?_upsertPoint store
    ⟨fid, encode_single model (textForEmbedding blankCreate.toDict),
      addPayload now blankCreate.toDict⟩

/-- The page scrolled by the stats aggregator is the whole collection
exactly when the collection holds at most the page size of 10000
documents. -/
theorem statsAllPoints_of_le {V : Type} (store : Store V)
    (h : store.length ≤ 10000) : statsAllPoints store = store := by
  rw [statsAllPoints, scrollPoints, List.drop_zero]
  exact List.take_of_length_le h

/-- C6, amended: `get_collection_stats` issues one single `scroll` call
with page size 10000 rather than looping until the collection is
exhausted, so the frequency tables are computed from the whole collection
only when it holds at most 10000 documents; the reported total is the exact
collection count in all cases. -/
theorem stats_single_scroll_page {V : Type} (store : Store V)
    (h : store.length ≤ 10000) :
    statsAllPoints store = store ∧
    (get_collection_stats store).total_documents = store.length :=
  ⟨statsAllPoints_of_le store h, rfl⟩

/-- Witness for the amended C6 theorem at a concrete input. -/
theorem stats_single_scroll_page_witness :
    statsAllPoints ([⟨"d1", (0 : Int), []⟩] : Store Int) = [⟨"d1", 0, []⟩] ∧
    (get_collection_stats ([⟨"d1", (0 : Int), []⟩] : Store Int)).total_documents = 1 :=
  stats_single_scroll_page [⟨"d1", 0, []⟩] (by decide)

/-- One point of a collection larger than the scroll page. -/
def bigPoint : Point Int := ⟨"x", 0, [("category", PVal.s "c")]⟩

/-- A collection of 10001 identical documents, one more than the single
scrolled page. -/
def bigStore : Store Int := List.replicate 10001 bigPoint

theorem stats_categories_eq {V : Type} (store : Store V) :
    (get_collection_stats store).categories =
      (statsAllPoints store).foldl
        (fun a p => if pyTruthy (catOf p) then bump a (catOf p) else a) [] := by
  rw [show (get_collection_stats store).categories =
      ((statsAllPoints store).foldl statStep ([], [], [])).1 from rfl,
    foldl_statStep_proj]

theorem stats_source_types_eq {V : Type} (store : Store V) :
    (get_collection_stats store).source_types =
      (statsAllPoints store).foldl
        (fun a p => if pyTruthy (stypeOf p) then bump a (stypeOf p) else a) [] := by
  rw [show (get_collection_stats store).source_types =
      ((statsAllPoints store).foldl statStep ([], [], [])).2.1 from rfl,
    foldl_statStep_proj]

theorem stats_tags_eq {V : Type} (store : Store V) :
    (get_collection_stats store).tags =
      (statsAllPoints store).foldl
        (fun a p => (tagsOf p).foldl bump a) [] := by
  rw [show (get_collection_stats store).tags =
      ((statsAllPoints store).foldl statStep ([], [], [])).2.2 from rfl,
    foldl_statStep_proj]

/-- C6, counterexample: on a collection of 10001 documents all of category
`c`, the frequency table records only 10000 occurrences — the document
beyond the single 10000-point scroll page is not accounted for, where the
claim promises every stored document is counted for every collection
size. -/
theorem stats_truncation_counterexample :
    getCount (get_collection_stats bigStore).categories (PVal.s "c") = 10000 ∧
    bigStore.length = 10001 := by
  constructor
  · have hs : statsAllPoints bigStore = List.replicate 10000 bigPoint := by
      rw [statsAllPoints, scrollPoints, List.drop_zero, bigStore,
        List.take_replicate]
      norm_num
    rw [stats_categories_eq, hs, getCount_foldl_bumpIf, List.countP_replicate]
    decide
  · rw [bigStore, List.length_replicate]

/-- C9, counterexample: a stored document whose category is the empty
string — a present, non-null value — is skipped by the stats aggregator
(the code tests Python truthiness, `if cat:`, not only null or absent),
where the claim says only null or absent values are skipped. -/
theorem stats_skips_empty_string_counterexample :
    dictGet [("category", PVal.s "")] "category" = some (PVal.s "") ∧
    some (PVal.s "") ≠ some PVal.null ∧
    (get_collection_stats
      [(⟨"d1", (0 : Int), [("category", PVal.s "")]⟩ : Point Int)]).categories = [] := by
  refine ⟨by decide, by decide, ?_⟩
  decide

theorem getCount_nil {α : Type} [BEq α] (k : α) :
    getCount ([] : List (α × Nat)) k = 0 := rfl

/-- C9, amended: over the single scrolled page (the whole collection when
it holds at most 10000 documents), `get_collection_stats` counts, for each
truthy value, exactly the documents carrying that category (resp. source
type) — skipping falsy values, that is null, absent, or the empty string,
which never receive a count — and counts every individual tag occurrence:
the count of a tag is the sum over documents of the number of occurrences
of that tag in the tag list of the document. -/
theorem stats_counting_spec {V : Type} (store : Store V)
    (h : store.length ≤ 10000) :
    (∀ v : PVal, pyTruthy v = true →
        getCount (get_collection_stats store).categories v =
          store.countP (fun p => catOf p == v)) ∧
    (∀ v : PVal, pyTruthy v = false →
        getCount (get_collection_stats store).categories v = 0) ∧
    (∀ v : PVal, pyTruthy v = true →
        getCount (get_collection_stats store).source_types v =
          store.countP (fun p => stypeOf p == v)) ∧
    (∀ v : PVal, pyTruthy v = false →
        getCount (get_collection_stats store).source_types v = 0) ∧
    (∀ t : String,
        getCount (get_collection_stats store).tags t =
          (store.map (fun p => (tagsOf p).count t)).sum) := by
  have hall := statsAllPoints_of_le store h
  refine ⟨?_, ?_, ?_, ?_, ?_⟩
  · intro v hv
    rw [stats_categories_eq, hall, getCount_foldl_bumpIf,
      getCount_nil, Nat.zero_add]
    apply List.countP_congr
    intro p hp
    constructor
    · intro hb
      exact (Bool.and_eq_true _ _).mp hb |>.2
    · intro hb
      have : catOf p = v := by simpa using hb
      rw [Bool.and_eq_true]
      exact ⟨this ▸ hv, hb⟩
  · intro v hv
    rw [stats_categories_eq, hall, getCount_foldl_bumpIf,
      getCount_nil, Nat.zero_add]
    apply List.countP_eq_zero.mpr
    intro p hp hcon
    rw [Bool.and_eq_true] at hcon
    have : catOf p = v := by simpa using hcon.2
    rw [this, hv] at hcon
    exact Bool.false_ne_true hcon.1
  · intro v hv
    rw [stats_source_types_eq, hall, getCount_foldl_bumpIf,
      getCount_nil, Nat.zero_add]
    apply List.countP_congr
    intro p hp
    constructor
    · intro hb
      exact (Bool.and_eq_true _ _).mp hb |>.2
    · intro hb
      have : stypeOf p = v := by simpa using hb
      rw [Bool.and_eq_true]
      exact ⟨this ▸ hv, hb⟩
  · intro v hv
    rw [stats_source_types_eq, hall, getCount_foldl_bumpIf,
      getCount_nil, Nat.zero_add]
    apply List.countP_eq_zero.mpr
    intro p hp hcon
    rw [Bool.and_eq_true] at hcon
    have : stypeOf p = v := by simpa using hcon.2
    rw [this, hv] at hcon
    exact Bool.false_ne_true hcon.1
  · intro t
    rw [stats_tags_eq, hall, getCount_foldl_tagStep,
      getCount_nil, Nat.zero_add]

/-- Witness for the amended C9 theorem at the worked example of the
specification: documents tagged `[a, b]`, `[a]` and `[b, c]` give the tag
`b` the count two. -/
theorem stats_counting_spec_witness :
    getCount (get_collection_stats
      ([⟨"d1", (0 : Int), [("tags", PVal.strs ["a", "b"])]⟩,
        ⟨"d2", 0, [("tags", PVal.strs ["a"])]⟩,
        ⟨"d3", 0, [("tags", PVal.strs ["b", "c"])]⟩] : Store Int)).tags "b" = 2 := by
  rw [(stats_counting_spec _ (by decide)).2.2.2.2 "b"]
  decide
